import Mathlib

/-!
Shallow embedding of the Courseaway learning-management backend
(`api/models.py`, `api/serializers.py`, `api/permissions.py`, `api/views.py`).

Records mirror the Django models; viewset actions become pure functions from
an application state (the relational store) to `Except ApiError` results, a
result of `.ok` carrying the post-save state.  Django only persists a row when
`.save()` is called, so every early-`return Response(error)` path of a view is
modelled as `.error e` with no successor state.
-/

deriving instance DecidableEq for Except

namespace Courseaway

/-- Roles of `User.USER_ROLES` in `api/models.py`. -/
inductive Role where
  | admin
  | student
deriving DecidableEq, Repr

/-- Statuses of `Enrollment.ENROLLMENT_STATUS` in `api/models.py`. -/
inductive EnrollmentStatus where
  | pending
  | approved
  | rejected
  | completed
deriving DecidableEq, Repr

/-- Error taxonomy of the spec, mapped from the HTTP statuses the views
return: 404 = `notFound`, 403 = `forbidden`, duplicate-pair 400 = `conflict`,
other 400 = `validationError`. -/
inductive ApiError where
  | notFound
  | forbidden
  | conflict
  | validationError
deriving DecidableEq, Repr

/-- A `User` row: primary key and the `role` column (profile fields are
irrelevant to the verified operations). -/
structure User where
  id : Nat
  role : Role
deriving DecidableEq, Repr

/-- A `Course` row: primary key, `instructor` foreign key, `is_active`. -/
structure Course where
  id : Nat
  instructor : Nat
  is_active : Bool
deriving DecidableEq, Repr

/-- An `Enrollment` row (`api/models.py`): `student` and `course` foreign
keys, `status`, `completion_percentage`, optional `grade`. -/
structure Enrollment where
  id : Nat
  student : Nat
  course : Nat
  status : EnrollmentStatus
  completion_percentage : ℚ
  grade : Option ℚ
deriving DecidableEq, Repr

/-- A `CourseContent` row: `course` foreign key and `is_active`. -/
structure CourseContent where
  id : Nat
  course : Nat
  is_active : Bool
deriving DecidableEq, Repr

/-- A `StudentProgress` row: `enrollment` and `content` foreign keys,
`is_completed`, optional `score`. -/
structure StudentProgress where
  id : Nat
  enrollment : Nat
  content : Nat
  is_completed : Bool
  score : Option ℚ
deriving DecidableEq, Repr

/-- The relational store: one table per model. -/
structure AppState where
  users : List User
  courses : List Course
  enrollments : List Enrollment
  contents : List CourseContent
  progresses : List StudentProgress
deriving DecidableEq, Repr

/-- A numeric field arriving in a request body: `float(x)` in the view either
parses the payload to a number or raises `ValueError`/`TypeError`. -/
inductive NumInput where
  | num (q : ℚ)
  | nonNumeric
deriving DecidableEq, Repr

/-- Fresh primary key for a new row. -/
def nextId (ids : List Nat) : Nat :=
  ids.foldr (fun i m => max (i + 1) m) 1

/-- Django `Enrollment.save()` on an existing row: replace the row with the
same primary key. -/
def setEnrollment (s : AppState) (e : Enrollment) : AppState :=
  { s with enrollments := s.enrollments.map (fun x => if x.id == e.id then e else x) }

/-- Instructor of the course with primary key `cid`, when the course exists. -/
def courseInstructorOf (s : AppState) (cid : Nat) : Option Nat :=
  (s.courses.find? (fun c => c.id == cid)).map (fun c => c.instructor)

/-- The `MinValueValidator(0)`/`MaxValueValidator(100)` pair that guards the
percentage-like model fields (`api/models.py`); the model serializers enforce
it on every save that goes through them. -/
def percentValidators (q : ℚ) : Bool := decide (0 ≤ q ∧ q ≤ 100)

/-- Serializer validation of an optional numeric payload field carrying the
0-100 model validators: absent is fine, a supplied value must be in range. -/
def optFieldOk (v : Option ℚ) : Bool :=
  match v with
  | none => true
  | some q => percentValidators q

namespace EnrollmentViewSet

/-- `EnrollmentViewSet.get_queryset`: admins see every enrollment, everyone
else only their own. -/
def get_queryset (s : AppState) (caller : User) : List Enrollment :=
  if caller.role = Role.admin then s.enrollments
  else s.enrollments.filter (fun e => e.student == caller.id)

/-- DRF `get_object` for this viewset: `get_object_or_404` over the
role-filtered queryset, then the `IsOwnerOrAdmin` object permission
(`api/permissions.py`). -/
def get_object (s : AppState) (caller : User) (eid : Nat) : Except ApiError Enrollment :=
  match (get_queryset s caller).find? (fun e => e.id == eid) with
  | none => .error .notFound
  | some e =>
      if caller.role = Role.admin ∨ e.student = caller.id then .ok e
      else .error .forbidden

/-- The enrollment row `EnrollmentViewSet.create` saves on success for the
spec's two-argument `requestEnrollment(studentId, courseId)` request shape:
no `status` is supplied, so the serializer default `pending` applies
(completion 0, no grade).  A request body that also supplied `status` would
be passed through by `EnrollmentSerializer` — only `id` and `enrolled_at` are
read-only — see `partial_update` for the consequence of that writability. -/
def newEnrollment (s : AppState) (sid cid : Nat) : Enrollment :=
  { id := nextId (s.enrollments.map (fun e => e.id)), student := sid, course := cid,
    status := EnrollmentStatus.pending, completion_percentage := 0, grade := none }

/-- `EnrollmentViewSet.create` (`api/views.py` lines 105-124): a non-admin may
only enroll themself; the serializer validates the `student` and `course`
foreign keys; a pre-existing (student, course) pair is rejected; otherwise a
`pending` enrollment is saved. -/
def create (s : AppState) (caller : User) (sid cid : Nat) : Except ApiError AppState :=
  if sid ≠ caller.id ∧ caller.role ≠ Role.admin then .error .forbidden
  else if ¬ ((s.users.any (fun u => u.id == sid)) ∧ (s.courses.any (fun c => c.id == cid))) then
    .error .validationError
  else if s.enrollments.any (fun e => e.student == sid && e.course == cid) then
    .error .conflict
  else .ok { s with enrollments := s.enrollments ++ [newEnrollment s sid cid] }

/-- The `float(completion_percentage)` block of `update_progress`: absent
input keeps the stored value, a non-numeric payload or a value outside
[0, 100] is a 400, otherwise the parsed value is taken. -/
def resolveCompletion (input : Option NumInput) (cur : ℚ) : Except ApiError ℚ :=
  match input with
  | none => .ok cur
  | some NumInput.nonNumeric => .error .validationError
  | some (NumInput.num q) => if q < 0 ∨ 100 < q then .error .validationError else .ok q

/-- The `float(grade)` block of `update_progress`, identical checks on the
nullable `grade` column. -/
def resolveGrade (input : Option NumInput) (cur : Option ℚ) : Except ApiError (Option ℚ) :=
  match input with
  | none => .ok cur
  | some NumInput.nonNumeric => .error .validationError
  | some (NumInput.num q) => if q < 0 ∨ 100 < q then .error .validationError else .ok (some q)

/-- `EnrollmentViewSet.update_progress` (`api/views.py` lines 126-161):
fetch through `get_object`, re-check admin-or-owner, validate each supplied
numeric field in order (`completion_percentage` first), and only then
`enrollment.save()`. -/
def update_progress (s : AppState) (caller : User) (eid : Nat)
    (cpIn gIn : Option NumInput) : Except ApiError AppState :=
  match get_object s caller eid with
  | .error err => .error err
  | .ok e =>
      if ¬ (caller.role = Role.admin ∨ e.student = caller.id) then .error .forbidden
      else
        match resolveCompletion cpIn e.completion_percentage with
        | .error err => .error err
        | .ok cp =>
            match resolveGrade gIn e.grade with
            | .error err => .error err
            | .ok g =>
                .ok (setEnrollment s { e with completion_percentage := cp, grade := g })

/-- The generic `UpdateModelMixin.partial_update` that `EnrollmentViewSet`
inherits from `ModelViewSet` and exposes through the router
(`PATCH /enrollments/{id}/`): fetch through `get_object`, validate the
supplied fields with `EnrollmentSerializer` — `status` is writable, since
only `id` and `enrolled_at` are read-only, and any declared status choice
(including `completed`) is accepted; supplied numeric fields must satisfy
the 0-100 model validators — then save, keeping unsupplied fields.  Modelled
for request bodies that leave `student` and `course` unsupplied. -/
def partial_update (s : AppState) (caller : User) (eid : Nat)
    (st : Option EnrollmentStatus) (cp g : Option ℚ) : Except ApiError AppState :=
  match get_object s caller eid with
  | .error err => .error err
  | .ok e =>
      if optFieldOk cp && optFieldOk g then
        .ok (setEnrollment s
          { e with status := st.getD e.status,
                   completion_percentage := cp.getD e.completion_percentage,
                   grade := (match g with | none => e.grade | some q => some q) })
      else .error .validationError

/-- `EnrollmentViewSet.approve` (`api/views.py` lines 176-188): fetch through
`get_object`, require admin or the course's instructor, set status
`approved` and save — the prior status is never inspected. -/
def approve (s : AppState) (caller : User) (eid : Nat) : Except ApiError AppState :=
  match get_object s caller eid with
  | .error err => .error err
  | .ok e =>
      if caller.role = Role.admin ∨ courseInstructorOf s e.course = some caller.id then
        .ok (setEnrollment s { e with status := EnrollmentStatus.approved })
      else .error .forbidden

/-- `EnrollmentViewSet.reject` (`api/views.py` lines 190-202): same gate as
`approve`, sets status `rejected`. -/
def reject (s : AppState) (caller : User) (eid : Nat) : Except ApiError AppState :=
  match get_object s caller eid with
  | .error err => .error err
  | .ok e =>
      if caller.role = Role.admin ∨ courseInstructorOf s e.course = some caller.id then
        .ok (setEnrollment s { e with status := EnrollmentStatus.rejected })
      else .error .forbidden

/-- The queryset `pending_approvals` returns for an admin caller: pending
enrollments whose course is instructed by the caller
(`Course.objects.filter(instructor=request.user)` runs for admins too). -/
def pendingFor (s : AppState) (caller : User) : List Enrollment :=
  s.enrollments.filter
    (fun e => e.status == EnrollmentStatus.pending
      && (s.courses.filter (fun c => c.instructor == caller.id)).any (fun c => c.id == e.course))

/-- `EnrollmentViewSet.pending_approvals` (`api/views.py` lines 204-219):
403 unless the caller's role is admin, then the instructor-scoped pending
list. -/
def pending_approvals (s : AppState) (caller : User) : Except ApiError (List Enrollment) :=
  if caller.role ≠ Role.admin then .error .forbidden
  else .ok (pendingFor s caller)

end EnrollmentViewSet

namespace StudentProgressViewSet

/-- The state after `StudentProgressViewSet.create` saves a new progress row
through the serializer. -/
def addProgress (s : AppState) (eid cid : Nat) (ic : Bool) (sc : Option ℚ) : AppState :=
  { s with progresses := s.progresses ++
      [{ id := nextId (s.progresses.map (fun p => p.id)), enrollment := eid, content := cid,
         is_completed := ic, score := sc }] }

/-- `StudentProgressViewSet.create` (`api/views.py` lines 260-283): look the
enrollment up in the unfiltered table (`Enrollment.objects.get`), 404 when
absent, 403 unless its status is `approved`, 400 when a progress row for the
(enrollment, content) pair exists, then `super().create` — whose serializer
validates the `content` foreign key and the 0-100 model validators on
`score` — saves the row. -/
def create (s : AppState) (eid cid : Nat) (ic : Bool) (sc : Option ℚ) :
    Except ApiError AppState :=
  match s.enrollments.find? (fun e => e.id == eid) with
  | none => .error .notFound
  | some e =>
      if e.status ≠ EnrollmentStatus.approved then .error .forbidden
      else if s.progresses.any (fun p => p.enrollment == eid && p.content == cid) then
        .error .conflict
      else if s.contents.any (fun c => c.id == cid) && optFieldOk sc then
        .ok (addProgress s eid cid ic sc)
      else .error .validationError

/-- The student key `course_progress` resolves: an admin may pass
`student_id` to inspect another student, anyone else gets their own. -/
def resolveKey (caller : User) (sidParam : Option Nat) : Nat :=
  match sidParam with
  | some sid => if caller.role = Role.admin then sid else caller.id
  | none => caller.id

/-- The `overall_progress` aggregate of `course_progress`. -/
structure ProgressSummary where
  total_contents : Nat
  completed_contents : Nat
  completion_percentage : ℚ
deriving DecidableEq, Repr

/-- `StudentProgressViewSet.course_progress` (`api/views.py` lines 285-321):
resolve the enrollment (404 when the filter is empty, else `.first()`),
count the course's active contents and the enrollment's completed progress
rows, and compute the ratio — 0 when the course has no active content. -/
def course_progress (s : AppState) (caller : User) (cid : Nat) (sidParam : Option Nat) :
    Except ApiError (ProgressSummary × List StudentProgress) :=
  match s.enrollments.filter (fun e => e.course == cid && e.student == resolveKey caller sidParam) with
  | [] => .error .notFound
  | e :: _ =>
      let progress := s.progresses.filter (fun p => p.enrollment == e.id)
      let total := (s.contents.filter (fun c => c.course == cid && c.is_active)).length
      let completed := (progress.filter (fun p => p.is_completed)).length
      .ok ({ total_contents := total, completed_contents := completed,
             completion_percentage :=
               if 0 < total then (completed : ℚ) / (total : ℚ) * 100 else 0 },
           progress)

end StudentProgressViewSet

namespace AuthViewSet

/-- `AuthViewSet.register` together with `UserRegistrationSerializer.validate`
and `.create` (`api/views.py` lines 21-46, `api/serializers.py` lines 18-53):
a truthy `admin_secret` must equal the configured secret — matching yields an
admin account, mismatching is a 400 with no user saved; an absent or blank
secret yields a student account. -/
def register (cfgSecret : String) (s : AppState) (newId : Nat) (adminSecret : Option String) :
    Except ApiError (AppState × Role) :=
  match adminSecret with
  | none => .ok ({ s with users := s.users ++ [{ id := newId, role := Role.student }] }, Role.student)
  | some sec =>
      if sec = "" then
        .ok ({ s with users := s.users ++ [{ id := newId, role := Role.student }] }, Role.student)
      else if sec = cfgSecret then
        .ok ({ s with users := s.users ++ [{ id := newId, role := Role.admin }] }, Role.admin)
      else .error .validationError

end AuthViewSet

/-- The enrollment-mutating operations whose bodies `api/views.py` itself
implements: `create` (on the two-argument request shape), `approve`,
`reject`, `update_progress`.  Deliberately not included: the router-exposed
generic `partial_update`/`update` inherited from `ModelViewSet`, which
writes any client-supplied `status` — see `EnrollmentViewSet.partial_update`
and the `completed`-reachability results below. -/
inductive EnrollmentOp where
  | request (caller : User) (sid cid : Nat)
  | approveOp (caller : User) (eid : Nat)
  | rejectOp (caller : User) (eid : Nat)
  | updateProg (caller : User) (eid : Nat) (cpIn gIn : Option NumInput)

/-- Apply one enrollment operation; an error response leaves the store
untouched. -/
def applyEnrollmentOp (s : AppState) (op : EnrollmentOp) : AppState :=
  match op with
  | .request caller sid cid =>
      match EnrollmentViewSet.create s caller sid cid with
      | .ok s2 => s2
      | .error _ => s
  | .approveOp caller eid =>
      match EnrollmentViewSet.approve s caller eid with
      | .ok s2 => s2
      | .error _ => s
  | .rejectOp caller eid =>
      match EnrollmentViewSet.reject s caller eid with
      | .ok s2 => s2
      | .error _ => s
  | .updateProg caller eid cpIn gIn =>
      match EnrollmentViewSet.update_progress s caller eid cpIn gIn with
      | .ok s2 => s2
      | .error _ => s

/-- Run a sequence of enrollment operations. -/
def runOps (s : AppState) : List EnrollmentOp → AppState
  | [] => s
  | op :: rest => runOps (applyEnrollmentOp s op) rest

/-- No enrollment in the store has status `completed`. -/
def noCompleted (s : AppState) : Prop :=
  ∀ e ∈ s.enrollments, e.status ≠ EnrollmentStatus.completed

instance (s : AppState) : Decidable (noCompleted s) :=
  List.decidableBAll _ s.enrollments

/-! ## Shared helper lemmas -/

/-- Finding in a filtered list is finding with the conjoined predicate. -/
theorem find?_filter_and {α : Type} (l : List α) (p q : α → Bool) :
    (l.filter p).find? q = l.find? (fun a => p a && q a) := by
  induction l with
  | nil => rfl
  | cons a t ih =>
      by_cases hp : p a
      · by_cases hq : q a
        · simp [List.filter_cons, hp, hq]
        · simp [List.filter_cons, hp, hq, ih]
      · simp [List.filter_cons, hp, ih]

/-- After replacing the row whose primary key is `e2.id`, a search whose
predicate only matches that key finds the replacement. -/
theorem find?_replaceRow (l : List Enrollment) (p : Enrollment → Bool) (e2 : Enrollment)
    (hp2 : p e2 = true)
    (hmatch : ∀ x, p x = true → x.id = e2.id)
    (hex : ∃ x ∈ l, x.id = e2.id) :
    (l.map (fun x => if x.id == e2.id then e2 else x)).find? p = some e2 := by
  induction l with
  | nil => simp at hex
  | cons a t ih =>
      by_cases ha : a.id = e2.id
      · have hrepl : (if a.id == e2.id then e2 else a) = e2 := by simp [ha]
        rw [List.map_cons, hrepl, List.find?_cons_of_pos _ hp2]
      · have hpa : ¬ p a = true := fun hc => ha (hmatch a hc)
        have hrepl : (if a.id == e2.id then e2 else a) = a := by simp [ha]
        rw [List.map_cons, hrepl, List.find?_cons_of_neg _ hpa]
        apply ih
        rcases hex with ⟨x, hx, hxid⟩
        rcases List.mem_cons.mp hx with rfl | hxt
        · exact absurd hxid ha
        · exact ⟨x, hxt, hxid⟩

/-- Saving the same row twice is the same as saving it once. -/
theorem setEnrollment_idem (s : AppState) (e2 : Enrollment) :
    setEnrollment (setEnrollment s e2) e2 = setEnrollment s e2 := by
  unfold setEnrollment
  simp only [List.map_map]
  have hfun : ((fun x => if x.id == e2.id then e2 else x) ∘
      (fun x => if x.id == e2.id then e2 else x)) =
      (fun x : Enrollment => if x.id == e2.id then e2 else x) := by
    funext x
    by_cases hx : x.id = e2.id <;> simp [hx]
  rw [hfun]

/-- A member of the store after a row replacement is the replacement or an
old member. -/
theorem mem_setEnrollment (s : AppState) (e2 x : Enrollment)
    (hx : x ∈ (setEnrollment s e2).enrollments) : x = e2 ∨ x ∈ s.enrollments := by
  unfold setEnrollment at hx
  simp only [List.mem_map] at hx
  rcases hx with ⟨y, hy, hxy⟩
  by_cases hid : y.id = e2.id
  · left
    rw [← hxy]
    simp [hid]
  · right
    rw [← hxy]
    simpa [hid] using hy

namespace EnrollmentViewSet

/-- A fetched enrollment was found in the caller's queryset and passed the
`IsOwnerOrAdmin` object permission. -/
theorem get_object_ok (s : AppState) (caller : User) (eid : Nat) (e : Enrollment)
    (h : get_object s caller eid = .ok e) :
    (get_queryset s caller).find? (fun x => x.id == eid) = some e ∧
      (caller.role = Role.admin ∨ e.student = caller.id) := by
  unfold get_object at h
  split at h
  · exact absurd h (by simp)
  next x hf =>
    split at h
    next hc =>
      have hxe : x = e := by injection h
      subst hxe
      exact ⟨hf, hc⟩
    · exact absurd h (by simp)

/-- A fetched enrollment is a row of the store. -/
theorem get_object_mem (s : AppState) (caller : User) (eid : Nat) (e : Enrollment)
    (h : get_object s caller eid = .ok e) : e ∈ s.enrollments := by
  have hx : e ∈ get_queryset s caller :=
    List.mem_of_find?_eq_some (get_object_ok s caller eid e h).1
  unfold get_queryset at hx
  by_cases hadm : caller.role = Role.admin
  · rwa [if_pos hadm] at hx
  · rw [if_neg hadm] at hx
    exact (List.mem_filter.mp hx).1

/-- A fetched enrollment passed the `IsOwnerOrAdmin` object permission. -/
theorem get_object_auth (s : AppState) (caller : User) (eid : Nat) (e : Enrollment)
    (h : get_object s caller eid = .ok e) :
    caller.role = Role.admin ∨ e.student = caller.id :=
  (get_object_ok s caller eid e h).2

/-- A fetched enrollment has the looked-up primary key. -/
theorem get_object_id (s : AppState) (caller : User) (eid : Nat) (e : Enrollment)
    (h : get_object s caller eid = .ok e) : e.id = eid := by
  have hpx := List.find?_some (get_object_ok s caller eid e h).1
  simpa using hpx

/-- Replacing a fetched row with one that keeps its primary key and student
leaves the replacement fetchable by the same caller. -/
theorem get_object_setEnrollment (s : AppState) (caller : User) (eid : Nat) (e e2 : Enrollment)
    (h : get_object s caller eid = .ok e)
    (hid : e2.id = e.id) (hstu : e2.student = e.student) :
    get_object (setEnrollment s e2) caller eid = .ok e2 := by
  obtain ⟨hf, hperm⟩ := get_object_ok s caller eid e h
  have heid : e.id = eid := get_object_id s caller eid e h
  have hmem : e ∈ s.enrollments := get_object_mem s caller eid e h
  unfold get_object get_queryset
  unfold get_queryset at hf
  by_cases hadm : caller.role = Role.admin
  · rw [if_pos hadm] at hf ⊢
    have hfind : ((setEnrollment s e2).enrollments).find? (fun x => x.id == eid) = some e2 := by
      simp only [setEnrollment]
      apply find?_replaceRow
      · simp [hid, heid]
      · intro x hx
        simp only [beq_iff_eq] at hx
        rw [hid, heid]
        exact hx
      · exact ⟨e, hmem, by rw [hid]⟩
    rw [hfind]
    simp [hadm]
  · rw [if_neg hadm] at hf ⊢
    have hstud : e.student = caller.id := by
      rcases hperm with hh | hh
      · exact absurd hh hadm
      · exact hh
    have hfind : (((setEnrollment s e2).enrollments).filter
        (fun x => x.student == caller.id)).find? (fun x => x.id == eid) = some e2 := by
      rw [find?_filter_and]
      simp only [setEnrollment]
      apply find?_replaceRow
      · simp only [Bool.and_eq_true, beq_iff_eq]
        exact ⟨by rw [hstu, hstud], by rw [hid, heid]⟩
      · intro x hx
        simp only [Bool.and_eq_true, beq_iff_eq] at hx
        rw [hid, heid]
        exact hx.2
      · exact ⟨e, hmem, by rw [hid]⟩
    rw [hfind]
    have he2s : e2.student = caller.id := by rw [hstu, hstud]
    simp [he2s]

end EnrollmentViewSet

/-! ## Claim theorems -/

/-- C1: `recordProgress` (`StudentProgressViewSet.create`) fails with
`NotFound` when the enrollment does not exist, with `Forbidden` when the
enrollment's status is not `approved` (so always fails against `pending` or
`rejected`), with `Conflict` when a progress row for the (enrollment,
content) pair exists, and otherwise saves the row provided the serializer
validations pass — the content must exist and a supplied `score` must sit in
the 0-100 model validators, else the call is a validation failure with
nothing saved — after which a second call for the same pair yields
`Conflict`, so it succeeds exactly once per pair. -/
theorem recordProgress_spec (s : AppState) (eid cid : Nat) (ic : Bool) (sc : Option ℚ) :
    (s.enrollments.find? (fun x => x.id == eid) = none →
      StudentProgressViewSet.create s eid cid ic sc = .error .notFound) ∧
    (∀ e, s.enrollments.find? (fun x => x.id == eid) = some e →
      e.status ≠ EnrollmentStatus.approved →
      StudentProgressViewSet.create s eid cid ic sc = .error .forbidden) ∧
    (∀ e, s.enrollments.find? (fun x => x.id == eid) = some e →
      e.status = EnrollmentStatus.approved →
      s.progresses.any (fun p => p.enrollment == eid && p.content == cid) = true →
      StudentProgressViewSet.create s eid cid ic sc = .error .conflict) ∧
    (∀ e, s.enrollments.find? (fun x => x.id == eid) = some e →
      e.status = EnrollmentStatus.approved →
      s.progresses.any (fun p => p.enrollment == eid && p.content == cid) = false →
      (s.contents.any (fun c => c.id == cid) && optFieldOk sc) = true →
      StudentProgressViewSet.create s eid cid ic sc =
        .ok (StudentProgressViewSet.addProgress s eid cid ic sc) ∧
      ∀ ic2 sc2,
        StudentProgressViewSet.create (StudentProgressViewSet.addProgress s eid cid ic sc)
          eid cid ic2 sc2 = .error .conflict) ∧
    (∀ e, s.enrollments.find? (fun x => x.id == eid) = some e →
      e.status = EnrollmentStatus.approved →
      s.progresses.any (fun p => p.enrollment == eid && p.content == cid) = false →
      (s.contents.any (fun c => c.id == cid) && optFieldOk sc) = false →
      StudentProgressViewSet.create s eid cid ic sc = .error .validationError) := by
  refine ⟨?_, ?_, ?_, ?_, ?_⟩
  · intro h
    simp [StudentProgressViewSet.create, h]
  · intro e he hst
    simp [StudentProgressViewSet.create, he, hst]
  · intro e he hst hdup
    simp [StudentProgressViewSet.create, he, hst, hdup]
  · intro e he hst hdup hval
    constructor
    · simp [StudentProgressViewSet.create, he, hst, hdup, hval]
    · intro ic2 sc2
      simp [StudentProgressViewSet.create, StudentProgressViewSet.addProgress, he, hst]
  · intro e he hst hdup hval
    simp [StudentProgressViewSet.create, he, hst, hdup, hval]

/-- C2: `requestEnrollment` (`EnrollmentViewSet.create`) by an authorized
caller against existing student and course rows fails with `Conflict` when an
enrollment for the (student, course) pair already exists — saving nothing —
and otherwise saves a new enrollment whose status is `pending`. -/
theorem requestEnrollment_spec (s : AppState) (caller : User) (sid cid : Nat)
    (hauth : sid = caller.id ∨ caller.role = Role.admin)
    (hstud : s.users.any (fun u => u.id == sid) = true)
    (hcourse : s.courses.any (fun c => c.id == cid) = true) :
    (s.enrollments.any (fun e => e.student == sid && e.course == cid) = true →
      EnrollmentViewSet.create s caller sid cid = .error .conflict) ∧
    (s.enrollments.any (fun e => e.student == sid && e.course == cid) = false →
      EnrollmentViewSet.create s caller sid cid =
        .ok { s with enrollments := s.enrollments ++ [EnrollmentViewSet.newEnrollment s sid cid] } ∧
      (EnrollmentViewSet.newEnrollment s sid cid).status = EnrollmentStatus.pending) := by
  have hgate : ¬ (sid ≠ caller.id ∧ caller.role ≠ Role.admin) := by
    rcases hauth with h | h
    · exact fun hc => hc.1 h
    · exact fun hc => hc.2 h
  constructor
  · intro hdup
    simp [EnrollmentViewSet.create, hgate, hstud, hcourse, hdup]
  · intro hdup
    exact ⟨by simp [EnrollmentViewSet.create, hgate, hstud, hcourse, hdup], rfl⟩

/-- C6: registration with a matching `admin_secret` creates an `admin`
account; with no secret or a blank one it creates a `student` account; with a
non-matching secret it fails with a validation error and saves no user. -/
theorem register_spec (cfg : String) (s : AppState) (nid : Nat) :
    (AuthViewSet.register cfg s nid none =
      .ok ({ s with users := s.users ++ [{ id := nid, role := Role.student }] }, Role.student)) ∧
    (AuthViewSet.register cfg s nid (some "") =
      .ok ({ s with users := s.users ++ [{ id := nid, role := Role.student }] }, Role.student)) ∧
    (∀ sec, sec ≠ "" → sec = cfg →
      AuthViewSet.register cfg s nid (some sec) =
        .ok ({ s with users := s.users ++ [{ id := nid, role := Role.admin }] }, Role.admin)) ∧
    (∀ sec, sec ≠ "" → sec ≠ cfg →
      AuthViewSet.register cfg s nid (some sec) = .error .validationError) := by
  refine ⟨rfl, rfl, ?_, ?_⟩
  · intro sec hne hcfg
    subst hcfg
    simp [AuthViewSet.register, hne]
  · intro sec hne hcfg
    simp [AuthViewSet.register, hne, hcfg]

/-- C3: `courseProgress` fails with `NotFound` when no enrollment exists for
the resolved (course, student) pair; otherwise its `total_contents` counts
exactly the course's active content items and `completion_percentage` is
`completed_contents / total_contents * 100`, with exactly 0 — and no division
performed — when the course has no active content. -/
theorem courseProgress_spec (s : AppState) (caller : User) (cid : Nat) (sidParam : Option Nat) :
    (s.enrollments.filter
        (fun e => e.course == cid && e.student == StudentProgressViewSet.resolveKey caller sidParam) = [] →
      StudentProgressViewSet.course_progress s caller cid sidParam = .error .notFound) ∧
    (∀ r det, StudentProgressViewSet.course_progress s caller cid sidParam = .ok (r, det) →
      r.total_contents = (s.contents.filter (fun c => c.course == cid && c.is_active)).length ∧
      (r.total_contents = 0 → r.completion_percentage = 0) ∧
      (0 < r.total_contents →
        r.completion_percentage = (r.completed_contents : ℚ) / (r.total_contents : ℚ) * 100)) := by
  constructor
  · intro h
    simp [StudentProgressViewSet.course_progress, h]
  · intro r det hok
    unfold StudentProgressViewSet.course_progress at hok
    split at hok
    · exact absurd hok (by simp)
    next e rest hfl =>
      simp only [Except.ok.injEq, Prod.mk.injEq] at hok
      obtain ⟨hr, hdet⟩ := hok
      subst hr
      refine ⟨rfl, ?_, ?_⟩
      · intro h0
        simp only [h0] at *
        simp [h0]
      · intro hpos
        simp [hpos]

/-- C4: `updateProgress` by a caller who can fetch the enrollment fails with
`ValidationError` whenever a supplied `completion_percentage` or `grade` is
non-numeric or outside [0, 100] — in particular when a valid value accompanies
the invalid one — and no save happens; when every supplied value is valid it
saves exactly the supplied fields on the fetched row, leaving the rest of the
row and the store untouched. -/
theorem updateProgress_spec (s : AppState) (caller : User) (eid : Nat) (e : Enrollment)
    (he : EnrollmentViewSet.get_object s caller eid = .ok e) :
    (∀ gIn, EnrollmentViewSet.update_progress s caller eid (some NumInput.nonNumeric) gIn =
      .error .validationError) ∧
    (∀ q gIn, (q < 0 ∨ 100 < q) →
      EnrollmentViewSet.update_progress s caller eid (some (NumInput.num q)) gIn =
        .error .validationError) ∧
    (∀ cpIn cp, EnrollmentViewSet.resolveCompletion cpIn e.completion_percentage = .ok cp →
      EnrollmentViewSet.update_progress s caller eid cpIn (some NumInput.nonNumeric) =
        .error .validationError) ∧
    (∀ cpIn cp q, EnrollmentViewSet.resolveCompletion cpIn e.completion_percentage = .ok cp →
      (q < 0 ∨ 100 < q) →
      EnrollmentViewSet.update_progress s caller eid cpIn (some (NumInput.num q)) =
        .error .validationError) ∧
    (∀ cpIn gIn cp g, EnrollmentViewSet.resolveCompletion cpIn e.completion_percentage = .ok cp →
      EnrollmentViewSet.resolveGrade gIn e.grade = .ok g →
      EnrollmentViewSet.update_progress s caller eid cpIn gIn =
        .ok (setEnrollment s { e with completion_percentage := cp, grade := g })) := by
  have hauth := EnrollmentViewSet.get_object_auth s caller eid e he
  refine ⟨?_, ?_, ?_, ?_, ?_⟩
  · intro gIn
    simp [EnrollmentViewSet.update_progress, he, hauth, EnrollmentViewSet.resolveCompletion]
  · intro q gIn hq
    simp [EnrollmentViewSet.update_progress, he, hauth, EnrollmentViewSet.resolveCompletion, hq]
  · intro cpIn cp hcp
    simp [EnrollmentViewSet.update_progress, he, hauth, hcp, EnrollmentViewSet.resolveGrade]
  · intro cpIn cp q hcp hq
    simp [EnrollmentViewSet.update_progress, he, hauth, hcp, EnrollmentViewSet.resolveGrade, hq]
  · intro cpIn gIn cp g hcp hg
    simp [EnrollmentViewSet.update_progress, he, hauth, hcp, hg]

/-- Row replacement never touches the course table, so instructor lookups are
unchanged. -/
theorem courseInstructorOf_setEnrollment (s : AppState) (e2 : Enrollment) (cid : Nat) :
    courseInstructorOf (setEnrollment s e2) cid = courseInstructorOf s cid := rfl

/-- C5 (amended): for a caller who can fetch the enrollment, `approve` by an
admin or the course's instructor overwrites any prior status with `approved`
and `reject` with `rejected`, idempotently — applying the action to its own
result returns the same state; a fetching caller who is neither admin nor the
course's instructor (the enrollment's own student) gets `Forbidden` with
nothing saved; when the fetch itself fails — in particular `NotFound` for a
non-admin caller looking at another student's enrollment — that error is
returned with nothing saved. -/
theorem approveReject_spec (s : AppState) (caller : User) (eid : Nat) :
    (∀ e, EnrollmentViewSet.get_object s caller eid = .ok e →
      (caller.role = Role.admin ∨ courseInstructorOf s e.course = some caller.id) →
      (EnrollmentViewSet.approve s caller eid =
          .ok (setEnrollment s { e with status := EnrollmentStatus.approved }) ∧
        EnrollmentViewSet.approve
            (setEnrollment s { e with status := EnrollmentStatus.approved }) caller eid =
          .ok (setEnrollment s { e with status := EnrollmentStatus.approved })) ∧
      (EnrollmentViewSet.reject s caller eid =
          .ok (setEnrollment s { e with status := EnrollmentStatus.rejected }) ∧
        EnrollmentViewSet.reject
            (setEnrollment s { e with status := EnrollmentStatus.rejected }) caller eid =
          .ok (setEnrollment s { e with status := EnrollmentStatus.rejected }))) ∧
    (∀ e, EnrollmentViewSet.get_object s caller eid = .ok e →
      ¬ (caller.role = Role.admin ∨ courseInstructorOf s e.course = some caller.id) →
      EnrollmentViewSet.approve s caller eid = .error .forbidden ∧
      EnrollmentViewSet.reject s caller eid = .error .forbidden) ∧
    (∀ err, EnrollmentViewSet.get_object s caller eid = .error err →
      EnrollmentViewSet.approve s caller eid = .error err ∧
      EnrollmentViewSet.reject s caller eid = .error err) := by
  refine ⟨?_, ?_, ?_⟩
  · intro e hok hpriv
    constructor
    · constructor
      · simp [EnrollmentViewSet.approve, hok, hpriv]
      · have hgo := EnrollmentViewSet.get_object_setEnrollment s caller eid e
          { e with status := EnrollmentStatus.approved } hok rfl rfl
        have hpriv2 : caller.role = Role.admin ∨
            courseInstructorOf (setEnrollment s { e with status := EnrollmentStatus.approved })
              ({ e with status := EnrollmentStatus.approved } : Enrollment).course =
              some caller.id := hpriv
        simp only [EnrollmentViewSet.approve, hgo, if_pos hpriv2]
        have hsame : ({ { e with status := EnrollmentStatus.approved } with
            status := EnrollmentStatus.approved } : Enrollment) =
            { e with status := EnrollmentStatus.approved } := rfl
        rw [hsame, setEnrollment_idem]
    · constructor
      · simp [EnrollmentViewSet.reject, hok, hpriv]
      · have hgo := EnrollmentViewSet.get_object_setEnrollment s caller eid e
          { e with status := EnrollmentStatus.rejected } hok rfl rfl
        have hpriv2 : caller.role = Role.admin ∨
            courseInstructorOf (setEnrollment s { e with status := EnrollmentStatus.rejected })
              ({ e with status := EnrollmentStatus.rejected } : Enrollment).course =
              some caller.id := hpriv
        simp only [EnrollmentViewSet.reject, hgo, if_pos hpriv2]
        have hsame : ({ { e with status := EnrollmentStatus.rejected } with
            status := EnrollmentStatus.rejected } : Enrollment) =
            { e with status := EnrollmentStatus.rejected } := rfl
        rw [hsame, setEnrollment_idem]
  · intro e hok hpriv
    exact ⟨by simp [EnrollmentViewSet.approve, hok, hpriv],
      by simp [EnrollmentViewSet.reject, hok, hpriv]⟩
  · intro err herr
    exact ⟨by simp [EnrollmentViewSet.approve, herr],
      by simp [EnrollmentViewSet.reject, herr]⟩

/-- C7 (corrected, as stated): a concrete refutation — student 3, neither
admin nor the owner of enrollment 1 (student 2's), calls `update_progress`
and receives `NotFound`, not `Forbidden`: the role-filtered queryset hides
the enrollment before the view's own permission check can run. -/
def c7State : AppState :=
  { users := [⟨1, Role.admin⟩, ⟨2, Role.student⟩, ⟨3, Role.student⟩],
    courses := [⟨1, 1, true⟩],
    enrollments := [⟨1, 2, 1, EnrollmentStatus.pending, 0, none⟩],
    contents := [],
    progresses := [] }

/-- C7 counterexample: the non-owner, non-admin caller gets `NotFound`, which
is a different error than the `Forbidden` the claim promises. -/
theorem updateProgress_nonowner_cex :
    EnrollmentViewSet.update_progress c7State ⟨3, Role.student⟩ 1
        (some (NumInput.num 50)) none = .error .notFound ∧
      ApiError.notFound ≠ ApiError.forbidden := by
  constructor
  · decide
  · decide

/-- C7 (amended): an authenticated caller who is neither an admin nor the
enrollment's student receives `NotFound` (never `Forbidden`) from
`update_progress` — the role-filtered queryset makes the enrollment invisible
— and nothing is saved. -/
theorem updateProgress_nonowner_spec (s : AppState) (caller : User) (eid : Nat)
    (cpIn gIn : Option NumInput)
    (hrole : caller.role ≠ Role.admin)
    (hnotOwner : ∀ e ∈ s.enrollments, e.id = eid → e.student ≠ caller.id) :
    EnrollmentViewSet.update_progress s caller eid cpIn gIn = .error .notFound := by
  have hget : EnrollmentViewSet.get_object s caller eid = .error .notFound := by
    unfold EnrollmentViewSet.get_object EnrollmentViewSet.get_queryset
    rw [if_neg hrole]
    have hnone : (s.enrollments.filter (fun e => e.student == caller.id)).find?
        (fun x => x.id == eid) = none := by
      rw [List.find?_eq_none]
      intro x hx
      obtain ⟨hxmem, hxstu⟩ := List.mem_filter.mp hx
      simp only [beq_iff_eq] at hxstu ⊢
      exact fun hxid => hnotOwner x hxmem hxid hxstu
    rw [hnone]
  simp [EnrollmentViewSet.update_progress, hget]

/-- C8 (corrected, as stated): a concrete refutation — admin 1 does not
instruct course 1 (admin 2 does), so `pending_approvals` returns the empty
list to admin 1 even though a pending enrollment exists: admins do not see
all pending enrollments. -/
def c8State : AppState :=
  { users := [⟨1, Role.admin⟩, ⟨2, Role.admin⟩, ⟨3, Role.student⟩],
    courses := [⟨1, 2, true⟩],
    enrollments := [⟨1, 3, 1, EnrollmentStatus.pending, 0, none⟩],
    contents := [],
    progresses := [] }

/-- C8 counterexample: an admin who instructs no course gets `[]` although a
pending enrollment exists, refuting "every admin sees all pending
enrollments". -/
theorem pendingApprovals_admin_cex :
    EnrollmentViewSet.pending_approvals c8State ⟨1, Role.admin⟩ = .ok [] ∧
      c8State.enrollments.filter (fun e => e.status == EnrollmentStatus.pending) =
        [⟨1, 3, 1, EnrollmentStatus.pending, 0, none⟩] := by
  constructor
  · decide
  · decide

/-- C8 (amended): `pending_approvals` fails with `Forbidden` for every caller
whose role is not admin; an admin caller receives exactly the pending
enrollments of the courses that admin instructs — the instructor-scoped
filter runs for admins too, so admins do not in general see all pending
enrollments. -/
theorem pendingApprovals_spec (s : AppState) (caller : User) :
    (caller.role ≠ Role.admin →
      EnrollmentViewSet.pending_approvals s caller = .error .forbidden) ∧
    (caller.role = Role.admin →
      EnrollmentViewSet.pending_approvals s caller =
          .ok (EnrollmentViewSet.pendingFor s caller) ∧
        ∀ e, e ∈ EnrollmentViewSet.pendingFor s caller ↔
          e ∈ s.enrollments ∧ e.status = EnrollmentStatus.pending ∧
            ∃ c ∈ s.courses, c.id = e.course ∧ c.instructor = caller.id) := by
  constructor
  · intro hrole
    simp [EnrollmentViewSet.pending_approvals, hrole]
  · intro hrole
    refine ⟨by simp [EnrollmentViewSet.pending_approvals, hrole], ?_⟩
    intro e
    unfold EnrollmentViewSet.pendingFor
    simp only [List.mem_filter, Bool.and_eq_true, beq_iff_eq, List.any_eq_true]
    tauto

/-- C5 (corrected, as stated): a concrete refutation of the `Forbidden`
clause — student 3, neither admin, nor instructor of course 1, nor the
enrollment's student, calls `approve` and gets `NotFound`. -/
def c5State : AppState :=
  { users := [⟨1, Role.admin⟩, ⟨2, Role.student⟩, ⟨3, Role.student⟩],
    courses := [⟨1, 1, true⟩],
    enrollments := [⟨1, 2, 1, EnrollmentStatus.pending, 0, none⟩],
    contents := [],
    progresses := [] }

/-- C5 counterexample: a caller who is neither admin nor the course's
instructor receives `NotFound` from `approve`, not the `Forbidden` the claim
promises for every such caller. -/
theorem approve_outsider_cex :
    EnrollmentViewSet.approve c5State ⟨3, Role.student⟩ 1 = .error .notFound ∧
      ApiError.notFound ≠ ApiError.forbidden := by
  constructor
  · decide
  · decide

/-- The store `EnrollmentViewSet.create` saves on success. -/
theorem create_ok_shape (s : AppState) (caller : User) (sid cid : Nat) (s2 : AppState)
    (h : EnrollmentViewSet.create s caller sid cid = .ok s2) :
    s2 = { s with enrollments := s.enrollments ++ [EnrollmentViewSet.newEnrollment s sid cid] } := by
  unfold EnrollmentViewSet.create at h
  split at h
  · exact absurd h (by simp)
  · split at h
    · exact absurd h (by simp)
    · split at h
      · exact absurd h (by simp)
      · injection h with h
        exact h.symm

/-- The store `EnrollmentViewSet.approve` saves on success. -/
theorem approve_ok_shape (s : AppState) (caller : User) (eid : Nat) (s2 : AppState)
    (h : EnrollmentViewSet.approve s caller eid = .ok s2) :
    ∃ e, EnrollmentViewSet.get_object s caller eid = .ok e ∧
      s2 = setEnrollment s { e with status := EnrollmentStatus.approved } := by
  unfold EnrollmentViewSet.approve at h
  split at h
  · exact absurd h (by simp)
  next e heq =>
    split at h
    · injection h with h
      exact ⟨e, heq, h.symm⟩
    · exact absurd h (by simp)

/-- The store `EnrollmentViewSet.reject` saves on success. -/
theorem reject_ok_shape (s : AppState) (caller : User) (eid : Nat) (s2 : AppState)
    (h : EnrollmentViewSet.reject s caller eid = .ok s2) :
    ∃ e, EnrollmentViewSet.get_object s caller eid = .ok e ∧
      s2 = setEnrollment s { e with status := EnrollmentStatus.rejected } := by
  unfold EnrollmentViewSet.reject at h
  split at h
  · exact absurd h (by simp)
  next e heq =>
    split at h
    · injection h with h
      exact ⟨e, heq, h.symm⟩
    · exact absurd h (by simp)

/-- The store `EnrollmentViewSet.update_progress` saves on success. -/
theorem update_progress_ok_shape (s : AppState) (caller : User) (eid : Nat)
    (cpIn gIn : Option NumInput) (s2 : AppState)
    (h : EnrollmentViewSet.update_progress s caller eid cpIn gIn = .ok s2) :
    ∃ e cp g, EnrollmentViewSet.get_object s caller eid = .ok e ∧
      s2 = setEnrollment s { e with completion_percentage := cp, grade := g } := by
  unfold EnrollmentViewSet.update_progress at h
  split at h
  · exact absurd h (by simp)
  next e heq =>
    split at h
    · exact absurd h (by simp)
    · split at h
      · exact absurd h (by simp)
      next cp hcp =>
        split at h
        · exact absurd h (by simp)
        next g hg =>
          injection h with h
          exact ⟨e, cp, g, heq, h.symm⟩

/-- Every single enrollment operation preserves the absence of `completed`
rows. -/
theorem noCompleted_apply (s : AppState) (op : EnrollmentOp) (h : noCompleted s) :
    noCompleted (applyEnrollmentOp s op) := by
  cases op with
  | request caller sid cid =>
      cases hres : EnrollmentViewSet.create s caller sid cid with
      | error err =>
          simp only [applyEnrollmentOp, hres]
          exact h
      | ok s2 =>
          have hs2 := create_ok_shape s caller sid cid s2 hres
          simp only [applyEnrollmentOp, hres, hs2]
          intro x hx
          rcases List.mem_append.mp hx with hx | hx
          · exact h x hx
          · have hxeq : x = EnrollmentViewSet.newEnrollment s sid cid := by simpa using hx
            subst hxeq
            simp [EnrollmentViewSet.newEnrollment]
  | approveOp caller eid =>
      cases hres : EnrollmentViewSet.approve s caller eid with
      | error err =>
          simp only [applyEnrollmentOp, hres]
          exact h
      | ok s2 =>
          obtain ⟨e, _, hs2⟩ := approve_ok_shape s caller eid s2 hres
          simp only [applyEnrollmentOp, hres, hs2]
          intro x hx
          rcases mem_setEnrollment s _ x hx with hxe | hx
          · subst hxe
            simp
          · exact h x hx
  | rejectOp caller eid =>
      cases hres : EnrollmentViewSet.reject s caller eid with
      | error err =>
          simp only [applyEnrollmentOp, hres]
          exact h
      | ok s2 =>
          obtain ⟨e, _, hs2⟩ := reject_ok_shape s caller eid s2 hres
          simp only [applyEnrollmentOp, hres, hs2]
          intro x hx
          rcases mem_setEnrollment s _ x hx with hxe | hx
          · subst hxe
            simp
          · exact h x hx
  | updateProg caller eid cpIn gIn =>
      cases hres : EnrollmentViewSet.update_progress s caller eid cpIn gIn with
      | error err =>
          simp only [applyEnrollmentOp, hres]
          exact h
      | ok s2 =>
          obtain ⟨e, cp, g, hok, hs2⟩ := update_progress_ok_shape s caller eid cpIn gIn s2 hres
          simp only [applyEnrollmentOp, hres, hs2]
          intro x hx
          rcases mem_setEnrollment s _ x hx with hxe | hx
          · subst hxe
            have hmem := EnrollmentViewSet.get_object_mem s caller eid e hok
            exact h e hmem
          · exact h x hx

/-- Runs of the view-implemented operations preserve the absence of
`completed` rows. -/
theorem noCompleted_runOps (s : AppState) (ops : List EnrollmentOp) (h : noCompleted s) :
    noCompleted (runOps s ops) := by
  induction ops generalizing s with
  | nil => exact h
  | cons op rest ih => exact ih (applyEnrollmentOp s op) (noCompleted_apply s op h)

/-- C9 counterexample, start state: no enrollment yet. -/
def c9S0 : AppState :=
  { users := [⟨1, Role.admin⟩, ⟨2, Role.student⟩],
    courses := [⟨1, 1, true⟩],
    enrollments := [], contents := [], progresses := [] }

/-- C9 counterexample, after student 2's `requestEnrollment`: the enrollment
is created `pending`. -/
def c9S1 : AppState :=
  { c9S0 with enrollments := [⟨1, 2, 1, EnrollmentStatus.pending, 0, none⟩] }

/-- C9 counterexample, after the owning student PATCHes
`status = completed` through the generic endpoint. -/
def c9S2 : AppState :=
  { c9S0 with enrollments := [⟨1, 2, 1, EnrollmentStatus.completed, 0, none⟩] }

/-- C9 counterexample: starting from an enrollment created `pending`, a
sequence of exposed enrollment operations — `create`, then the
router-exposed generic `partial_update` with `status = completed`, sent by
the enrollment's own student — does set the status to `completed`, because
`EnrollmentSerializer` leaves `status` writable. -/
theorem enrollment_completed_cex :
    EnrollmentViewSet.create c9S0 ⟨2, Role.student⟩ 2 1 = .ok c9S1 ∧
      EnrollmentViewSet.partial_update c9S1 ⟨2, Role.student⟩ 1
        (some EnrollmentStatus.completed) none none = .ok c9S2 ∧
      noCompleted c9S0 ∧ noCompleted c9S1 ∧ ¬ noCompleted c9S2 := by
  refine ⟨by decide, by decide, by decide, by decide, by decide⟩

/-- C9 (amended): the enrollment operations whose bodies the repository's
view code implements — `create` on the two-argument shape, `approve`,
`reject`, `update_progress` — never produce a `completed` status from a
store without one; but `completed` is programmatically reachable through the
exposed surface: the generic `partial_update` inherited from `ModelViewSet`
writes the client-supplied status, so any caller who can fetch the
enrollment saves `status = completed` directly, whatever the prior
status. -/
theorem enrollment_never_completed (s : AppState) (ops : List EnrollmentOp)
    (caller : User) (eid : Nat) :
    (noCompleted s → noCompleted (runOps s ops)) ∧
    (∀ e, EnrollmentViewSet.get_object s caller eid = .ok e →
      EnrollmentViewSet.partial_update s caller eid (some EnrollmentStatus.completed)
          none none =
        .ok (setEnrollment s { e with status := EnrollmentStatus.completed }) ∧
      ¬ noCompleted (setEnrollment s { e with status := EnrollmentStatus.completed })) := by
  refine ⟨noCompleted_runOps s ops, ?_⟩
  intro e hok
  constructor
  · simp [EnrollmentViewSet.partial_update, hok, optFieldOk, Option.getD]
  · intro hnc
    have hmem : ({ e with status := EnrollmentStatus.completed } : Enrollment) ∈
        (setEnrollment s { e with status := EnrollmentStatus.completed }).enrollments := by
      have hm := EnrollmentViewSet.get_object_mem s caller eid e hok
      unfold setEnrollment
      refine List.mem_map.mpr ⟨e, hm, ?_⟩
      simp
    exact hnc _ hmem rfl

/-- C10 base state: student 2 holds approved enrollment 1 in course 1, which
has exactly one active content item (content 1); content 2 belongs to the
different course 2. -/
def c10S0 : AppState :=
  { users := [⟨1, Role.admin⟩, ⟨2, Role.student⟩],
    courses := [⟨1, 1, true⟩, ⟨2, 1, true⟩],
    enrollments := [⟨1, 2, 1, EnrollmentStatus.approved, 0, none⟩],
    contents := [⟨1, 1, true⟩, ⟨2, 2, true⟩],
    progresses := [] }

/-- State after recording completed progress on enrollment 1 for content 2 —
a content item of a different course than the enrollment's. -/
def c10S1 : AppState := StudentProgressViewSet.addProgress c10S0 1 2 true none

/-- State after additionally recording completed progress for content 1. -/
def c10S2 : AppState := StudentProgressViewSet.addProgress c10S1 1 1 true none

/-- The itemized progress list `course_progress` returns on `c10S2`. -/
def c10Det : List StudentProgress := [⟨1, 1, 2, true, none⟩, ⟨2, 1, 1, true, none⟩]

/-- The aggregate `course_progress` returns on `c10S2`: 1 active content in
the course, 2 completed progress rows, 200 percent. -/
def c10Summary : StudentProgressViewSet.ProgressSummary :=
  { total_contents := 1, completed_contents := 2, completion_percentage := 200 }

/-- C10: `recordProgress` accepts a content item of a different course than
the enrollment's (content 2 of course 2 against enrollment 1 of course 1),
`course_progress` counts every completed progress row of the enrollment while
counting only the course's active contents, and the reachable state `c10S2`
— built by two successful `recordProgress` calls — yields a completion
percentage of 200, exceeding 100. -/
theorem courseProgress_overcount :
    StudentProgressViewSet.create c10S0 1 2 true none = .ok c10S1 ∧
    StudentProgressViewSet.create c10S1 1 1 true none = .ok c10S2 ∧
    c10S0.contents.find? (fun c => c.id == 2) = some ⟨2, 2, true⟩ ∧
    (2 : Nat) ≠ 1 ∧
    StudentProgressViewSet.course_progress c10S2 ⟨2, Role.student⟩ 1 none =
      .ok (c10Summary, c10Det) ∧
    100 < c10Summary.completion_percentage := by
  refine ⟨by decide, by decide, by decide, by decide, ?_, by norm_num [c10Summary]⟩
  have h1 : StudentProgressViewSet.course_progress c10S2 ⟨2, Role.student⟩ 1 none =
      .ok ({ total_contents := 1, completed_contents := 2,
             completion_percentage := (2 : ℚ) / (1 : ℚ) * 100 }, c10Det) := by rfl
  rw [h1]
  have h2 : (2 : ℚ) / (1 : ℚ) * 100 = 200 := by norm_num
  rw [h2]
  rfl

/-! ## Concrete witnesses -/

/-- Demo store for C1: approved enrollment 1 (student 2), pending
enrollment 2 (student 3), content 5 in course 1, no progress yet. -/
def w1S : AppState :=
  { users := [⟨1, Role.admin⟩, ⟨2, Role.student⟩, ⟨3, Role.student⟩],
    courses := [⟨1, 1, true⟩],
    enrollments := [⟨1, 2, 1, EnrollmentStatus.approved, 0, none⟩,
      ⟨2, 3, 1, EnrollmentStatus.pending, 0, none⟩],
    contents := [⟨5, 1, true⟩],
    progresses := [] }

/-- C1 witness: one success then `Conflict` on the same pair, `NotFound` for
a missing enrollment, `Forbidden` for the pending one, and a validation
failure for an out-of-range score. -/
theorem recordProgress_spec_witness :
    StudentProgressViewSet.create w1S 1 5 true none =
        .ok (StudentProgressViewSet.addProgress w1S 1 5 true none) ∧
      StudentProgressViewSet.create (StudentProgressViewSet.addProgress w1S 1 5 true none)
          1 5 true none = .error .conflict ∧
      StudentProgressViewSet.create w1S 9 5 true none = .error .notFound ∧
      StudentProgressViewSet.create w1S 2 5 true none = .error .forbidden ∧
      StudentProgressViewSet.create w1S 1 5 true (some 200) = .error .validationError := by
  have h4 := (recordProgress_spec w1S 1 5 true none).2.2.2.1
    ⟨1, 2, 1, EnrollmentStatus.approved, 0, none⟩ (by decide) rfl (by decide) (by decide)
  exact ⟨h4.1, h4.2 true none, (recordProgress_spec w1S 9 5 true none).1 (by decide),
    (recordProgress_spec w1S 2 5 true none).2.1
      ⟨2, 3, 1, EnrollmentStatus.pending, 0, none⟩ (by decide) (by decide),
    (recordProgress_spec w1S 1 5 true (some 200)).2.2.2.2
      ⟨1, 2, 1, EnrollmentStatus.approved, 0, none⟩ (by decide) rfl (by decide) (by decide)⟩

/-- Demo store for C2: student 2 already enrolled in course 1, student 3 not
yet. -/
def w2S : AppState :=
  { users := [⟨1, Role.admin⟩, ⟨2, Role.student⟩, ⟨3, Role.student⟩],
    courses := [⟨1, 1, true⟩],
    enrollments := [⟨1, 2, 1, EnrollmentStatus.pending, 0, none⟩],
    contents := [],
    progresses := [] }

/-- C2 witness: the duplicate pair conflicts, the fresh pair is saved
pending. -/
theorem requestEnrollment_spec_witness :
    EnrollmentViewSet.create w2S ⟨2, Role.student⟩ 2 1 = .error .conflict ∧
      EnrollmentViewSet.create w2S ⟨3, Role.student⟩ 3 1 =
        .ok { w2S with enrollments := w2S.enrollments ++ [EnrollmentViewSet.newEnrollment w2S 3 1] } := by
  exact ⟨(requestEnrollment_spec w2S ⟨2, Role.student⟩ 2 1 (Or.inl rfl)
      (by decide) (by decide)).1 (by decide),
    ((requestEnrollment_spec w2S ⟨3, Role.student⟩ 3 1 (Or.inl rfl)
      (by decide) (by decide)).2 (by decide)).1⟩

/-- Demo store for C3 with no enrollment at all. -/
def w3a : AppState :=
  { users := [⟨2, Role.student⟩], courses := [⟨1, 1, true⟩],
    enrollments := [], contents := [], progresses := [] }

/-- Demo store for C3 with an enrollment but zero active contents. -/
def w3b : AppState :=
  { users := [⟨2, Role.student⟩], courses := [⟨1, 1, true⟩],
    enrollments := [⟨1, 2, 1, EnrollmentStatus.approved, 0, none⟩],
    contents := [], progresses := [] }

/-- Demo store for C3 with one active content, completed. -/
def w3c : AppState :=
  { users := [⟨2, Role.student⟩], courses := [⟨1, 1, true⟩],
    enrollments := [⟨1, 2, 1, EnrollmentStatus.approved, 0, none⟩],
    contents := [⟨1, 1, true⟩],
    progresses := [⟨1, 1, 1, true, none⟩] }

/-- C3 witness: `NotFound` without an enrollment, percentage exactly 0 for a
course with no active content, and the ratio formula in the positive case. -/
theorem courseProgress_spec_witness :
    StudentProgressViewSet.course_progress w3a ⟨2, Role.student⟩ 1 none = .error .notFound ∧
      StudentProgressViewSet.course_progress w3b ⟨2, Role.student⟩ 1 none =
        .ok ({ total_contents := 0, completed_contents := 0, completion_percentage := 0 }, []) ∧
      ({ total_contents := 0, completed_contents := 0, completion_percentage := 0 } :
        StudentProgressViewSet.ProgressSummary).completion_percentage = 0 ∧
      ({ total_contents := 1, completed_contents := 1,
          completion_percentage := ((1 : Nat) : ℚ) / ((1 : Nat) : ℚ) * 100 } :
        StudentProgressViewSet.ProgressSummary).completion_percentage =
        ((1 : Nat) : ℚ) / ((1 : Nat) : ℚ) * 100 := by
  refine ⟨(courseProgress_spec w3a ⟨2, Role.student⟩ 1 none).1 (by decide), rfl, ?_, ?_⟩
  · exact ((courseProgress_spec w3b ⟨2, Role.student⟩ 1 none).2 _ _ rfl).2.1 rfl
  · exact ((courseProgress_spec w3c ⟨2, Role.student⟩ 1 none).2
      { total_contents := 1, completed_contents := 1,
        completion_percentage := ((1 : Nat) : ℚ) / ((1 : Nat) : ℚ) * 100 }
      [⟨1, 1, 1, true, none⟩] rfl).2.2 (by decide)

/-- Demo store for C4: enrollment 1 of student 2, completion 30, no grade. -/
def w4S : AppState :=
  { users := [⟨1, Role.admin⟩, ⟨2, Role.student⟩],
    courses := [⟨1, 1, true⟩],
    enrollments := [⟨1, 2, 1, EnrollmentStatus.pending, 30, none⟩],
    contents := [], progresses := [] }

/-- The enrollment row of `w4S`. -/
def w4E : Enrollment := ⟨1, 2, 1, EnrollmentStatus.pending, 30, none⟩

/-- C4 witness: non-numeric and out-of-range inputs are rejected — also when
a valid completion accompanies an invalid grade — and a fully valid call
saves exactly the two supplied fields. -/
theorem updateProgress_spec_witness :
    EnrollmentViewSet.update_progress w4S ⟨1, Role.admin⟩ 1
        (some NumInput.nonNumeric) none = .error .validationError ∧
      EnrollmentViewSet.update_progress w4S ⟨1, Role.admin⟩ 1
        (some (NumInput.num 150)) none = .error .validationError ∧
      EnrollmentViewSet.update_progress w4S ⟨1, Role.admin⟩ 1
        (some (NumInput.num 50)) (some NumInput.nonNumeric) = .error .validationError ∧
      EnrollmentViewSet.update_progress w4S ⟨1, Role.admin⟩ 1
        (some (NumInput.num 50)) (some (NumInput.num 200)) = .error .validationError ∧
      EnrollmentViewSet.update_progress w4S ⟨1, Role.admin⟩ 1
        (some (NumInput.num 50)) (some (NumInput.num 80)) =
        .ok (setEnrollment w4S { w4E with completion_percentage := 50, grade := some 80 }) := by
  have h := updateProgress_spec w4S ⟨1, Role.admin⟩ 1 w4E (by decide)
  exact ⟨h.1 none, h.2.1 150 none (Or.inr (by norm_num)),
    h.2.2.1 (some (NumInput.num 50)) 50 (by decide),
    h.2.2.2.1 (some (NumInput.num 50)) 50 200 (by decide) (Or.inr (by norm_num)),
    h.2.2.2.2 (some (NumInput.num 50)) (some (NumInput.num 80)) 50 (some 80)
      (by decide) (by decide)⟩

/-- C5 witness: the admin approves the pending enrollment — twice with the
same resulting store — the owning student is refused, and an unknown id
propagates `NotFound`; `reject` mirrors `approve`. -/
theorem approveReject_spec_witness :
    EnrollmentViewSet.approve c5State ⟨1, Role.admin⟩ 1 =
        .ok (setEnrollment c5State
          { id := 1, student := 2, course := 1, status := EnrollmentStatus.approved,
            completion_percentage := 0, grade := none }) ∧
      EnrollmentViewSet.approve
          (setEnrollment c5State
            { id := 1, student := 2, course := 1, status := EnrollmentStatus.approved,
              completion_percentage := 0, grade := none }) ⟨1, Role.admin⟩ 1 =
        .ok (setEnrollment c5State
          { id := 1, student := 2, course := 1, status := EnrollmentStatus.approved,
            completion_percentage := 0, grade := none }) ∧
      EnrollmentViewSet.reject c5State ⟨1, Role.admin⟩ 1 =
        .ok (setEnrollment c5State
          { id := 1, student := 2, course := 1, status := EnrollmentStatus.rejected,
            completion_percentage := 0, grade := none }) ∧
      EnrollmentViewSet.approve c5State ⟨2, Role.student⟩ 1 = .error .forbidden ∧
      EnrollmentViewSet.approve c5State ⟨1, Role.admin⟩ 9 = .error .notFound := by
  have h := (approveReject_spec c5State ⟨1, Role.admin⟩ 1).1
    ⟨1, 2, 1, EnrollmentStatus.pending, 0, none⟩ (by decide) (Or.inl rfl)
  exact ⟨h.1.1, h.1.2, h.2.1,
    ((approveReject_spec c5State ⟨2, Role.student⟩ 1).2.1
      ⟨1, 2, 1, EnrollmentStatus.pending, 0, none⟩ (by decide) (by decide)).1,
    ((approveReject_spec c5State ⟨1, Role.admin⟩ 9).2.2 .notFound (by decide)).1⟩

/-- Demo store for C6. -/
def w6S : AppState :=
  { users := [], courses := [], enrollments := [], contents := [], progresses := [] }

/-- C6 witness, at the configured default secret of `core/settings.py`: no
secret and a blank secret give a student, the matching secret gives an
admin, a wrong one is rejected. -/
theorem register_spec_witness :
    AuthViewSet.register "my-admin-secret-12345" w6S 1 none =
        .ok ({ w6S with users := [{ id := 1, role := Role.student }] }, Role.student) ∧
      AuthViewSet.register "my-admin-secret-12345" w6S 1 (some "") =
        .ok ({ w6S with users := [{ id := 1, role := Role.student }] }, Role.student) ∧
      AuthViewSet.register "my-admin-secret-12345" w6S 1 (some "my-admin-secret-12345") =
        .ok ({ w6S with users := [{ id := 1, role := Role.admin }] }, Role.admin) ∧
      AuthViewSet.register "my-admin-secret-12345" w6S 1 (some "wrong-secret") =
        .error .validationError := by
  have h := register_spec "my-admin-secret-12345" w6S 1
  exact ⟨h.1, h.2.1, h.2.2.1 "my-admin-secret-12345" (by decide) rfl,
    h.2.2.2 "wrong-secret" (by decide) (by decide)⟩

/-- C7 witness: the amended behavior at a concrete store — the unrelated
student gets `NotFound`. -/
theorem updateProgress_nonowner_spec_witness :
    EnrollmentViewSet.update_progress c7State ⟨3, Role.student⟩ 1 none none =
      .error .notFound :=
  updateProgress_nonowner_spec c7State ⟨3, Role.student⟩ 1 none none (by decide) (by decide)

/-- C8 witness: a student is refused; the instructing admin receives the
instructor-scoped pending list. -/
theorem pendingApprovals_spec_witness :
    EnrollmentViewSet.pending_approvals c8State ⟨3, Role.student⟩ = .error .forbidden ∧
      EnrollmentViewSet.pending_approvals c8State ⟨2, Role.admin⟩ =
        .ok (EnrollmentViewSet.pendingFor c8State ⟨2, Role.admin⟩) := by
  exact ⟨(pendingApprovals_spec c8State ⟨3, Role.student⟩).1 (by decide),
    ((pendingApprovals_spec c8State ⟨2, Role.admin⟩).2 rfl).1⟩

/-- Demo store for C9: empty enrollment table. -/
def w9S : AppState :=
  { users := [⟨1, Role.admin⟩, ⟨2, Role.student⟩],
    courses := [⟨1, 1, true⟩],
    enrollments := [], contents := [], progresses := [] }

/-- Demo run for C9: student 2 requests enrollment in course 1, the admin
approves it, the student updates the percentage. -/
def w9Ops : List EnrollmentOp :=
  [EnrollmentOp.request ⟨2, Role.student⟩ 2 1,
   EnrollmentOp.approveOp ⟨1, Role.admin⟩ 1,
   EnrollmentOp.updateProg ⟨2, Role.student⟩ 1 (some (NumInput.num 40)) none]

/-- C9 witness: the demo run of view-implemented operations leaves no
`completed` enrollment, while a concrete generic PATCH on the pending
enrollment of `c9S1` saves `completed`. -/
theorem enrollment_never_completed_witness :
    noCompleted (runOps w9S w9Ops) ∧
      EnrollmentViewSet.partial_update c9S1 ⟨2, Role.student⟩ 1
          (some EnrollmentStatus.completed) none none =
        .ok (setEnrollment c9S1
          { id := 1, student := 2, course := 1, status := EnrollmentStatus.completed,
            completion_percentage := 0, grade := none }) ∧
      ¬ noCompleted (setEnrollment c9S1
          { id := 1, student := 2, course := 1, status := EnrollmentStatus.completed,
            completion_percentage := 0, grade := none }) := by
  have h2 := (enrollment_never_completed c9S1 [] ⟨2, Role.student⟩ 1).2
    ⟨1, 2, 1, EnrollmentStatus.pending, 0, none⟩ (by decide)
  exact ⟨(enrollment_never_completed w9S w9Ops ⟨2, Role.student⟩ 1).1 (by decide),
    h2.1, h2.2⟩

end Courseaway
